import Mathlib

/-!
Shallow embedding of the Dendron `NoteStore` engine (TypeScript class
`NoteStore`): the split-storage note engine that reconciles a structured
metadata store with a file content store on every read, write and delete.
External collaborators (the two backing stores, path resolution, the
serializer and the content hash) are modelled at their interface boundary
as described in the specification; the engine methods themselves are
translated line by line from the source. Backing-store failures are
modelled by failure-injection tables carried in the store states, so the
theorems quantify over every pattern of sub-operation success and failure.
-/

set_option autoImplicit false

/-- Error statuses of the engine (`ERROR_STATUS` in `common-all`); only the
statuses this engine touches are modelled. -/
inductive ErrorStatus where
  | badParseForNote
  | writeFailed
  | doesNotExist
  | backendError
deriving DecidableEq

/-- Error severities (`ERROR_SEVERITY`). -/
inductive ErrorSeverity where
  | minor
  | fatal
deriving DecidableEq

/-- A single Dendron error (`DendronError`): a status, a message and an
optional severity. -/
structure DendronError where
  status : ErrorStatus
  message : String
  severity : Option ErrorSeverity
deriving DecidableEq

/-- `DendronCompositeError`: a container of underlying errors, used by the
batched `find` operation. -/
structure DendronCompositeError where
  errors : List DendronError
deriving DecidableEq

/-- `RespV3<T>`: a single-item response, either `{data}` or `{error}`. -/
abbrev RespV3 (α : Type) := Except DendronError α

/-- `BulkResp<T>`: a batch response; `error` is a composite error or null
(`none`), and `data` may be absent (`none`, the failure branch of `find`). -/
structure BulkResp (α : Type) where
  error : Option DendronCompositeError
  data : Option α

/-- `NotePropsMeta`: the structured, queryable fields of a note — every
field of the full note except `body`. `custom` stands for the remaining
user-defined key-value attributes; `contentHash` is optional, freshly
recomputed on every full read. -/
structure NotePropsMeta where
  id : String
  fname : String
  custom : List (String × String)
  contentHash : Option String
deriving DecidableEq

/-- `NoteProps`: the full in-memory note, metadata plus `body`. -/
structure NoteProps extends NotePropsMeta where
  body : String
deriving DecidableEq

/-- `_.omit(note, "body")`: the metadata projection of a full note. -/
def omitBody (note : NoteProps) : NotePropsMeta :=
  note.toNotePropsMeta

/-- `DNoteLoc`: a note location; the engine's `rename` only reads `fname`. -/
structure DNoteLoc where
  fname : String
deriving DecidableEq

/-- Modelled from the spec: `FindNoteOpts`, a structured query over metadata
fields; the engine passes it through opaquely, so a single optional
name filter suffices. -/
structure FindNoteOpts where
  fname : Option String
deriving DecidableEq

/-- First value stored under a key in an association list. -/
def lookupA {α : Type} : List (String × α) → String → Option α
  | [], _ => none
  | (k, v) :: rest, key => if k = key then some v else lookupA rest key

/-- Remove every entry stored under a key. -/
def eraseA {α : Type} (l : List (String × α)) (key : String) : List (String × α) :=
  l.filter (fun p => p.1 ≠ key)

/-- Store a value under a key, replacing any previous entry. -/
def setA {α : Type} (l : List (String × α)) (key : String) (v : α) : List (String × α) :=
  (key, v) :: eraseA l key

/-- Modelled from the spec: the error a backing store reports when a key is
absent (`NotFoundOrBackendError`, absence case). -/
def notFoundError (key : String) : DendronError :=
  { status := .doesNotExist
    message := "no entry for key " ++ key
    severity := none }

/-- Modelled from the spec: the metadata store (`IDataStore<string,
NotePropsMeta>`) at its interface boundary. `entries` is its current
contents; the `…Fail` tables inject a backend error for an operation on a
given key, leaving the store unchanged, so that theorems range over every
failure pattern. -/
structure MetaStore where
  entries : List (String × NotePropsMeta)
  getFail : List (String × DendronError)
  writeFail : List (String × DendronError)
  deleteFail : List (String × DendronError)
  findFail : Option DendronError

/-- Metadata store `get(id) -> metadata | error`. -/
def MetaStore.get (ms : MetaStore) (key : String) : RespV3 NotePropsMeta :=
  match lookupA ms.getFail key with
  | some e => .error e
  | none =>
    match lookupA ms.entries key with
    | some m => .ok m
    | none => .error (notFoundError key)

/-- Metadata store `write(id, metadata) -> ack | error`. -/
def MetaStore.write (ms : MetaStore) (key : String) (m : NotePropsMeta) :
    RespV3 Unit × MetaStore :=
  match lookupA ms.writeFail key with
  | some e => (.error e, ms)
  | none => (.ok (), { ms with entries := setA ms.entries key m })

/-- Metadata store `delete(id) -> ack | error`. -/
def MetaStore.delete (ms : MetaStore) (key : String) : RespV3 Unit × MetaStore :=
  match lookupA ms.deleteFail key with
  | some e => (.error e, ms)
  | none => (.ok (), { ms with entries := eraseA ms.entries key })

/-- Whether a metadata row matches a structured query. -/
def matchesOpts (opts : FindNoteOpts) (m : NotePropsMeta) : Bool :=
  match opts.fname with
  | none => true
  | some f => m.fname == f

/-- Metadata store `find(query) -> list<metadata> | error`. -/
def MetaStore.find (ms : MetaStore) (opts : FindNoteOpts) :
    RespV3 (List NotePropsMeta) :=
  match ms.findFail with
  | some e => .error e
  | none => .ok ((ms.entries.map Prod.snd).filter (matchesOpts opts))

/-- Modelled from the spec: the content store (`IFileStore`) at its
interface boundary, keyed by resolved path; same failure-injection scheme
as `MetaStore`. -/
structure FileStore where
  entries : List (String × String)
  readFail : List (String × DendronError)
  writeFail : List (String × DendronError)
  deleteFail : List (String × DendronError)

/-- Content store `read(key) -> text | error`. -/
def FileStore.read (fs : FileStore) (fpath : String) : RespV3 String :=
  match lookupA fs.readFail fpath with
  | some e => .error e
  | none =>
    match lookupA fs.entries fpath with
    | some text => .ok text
    | none => .error (notFoundError fpath)

/-- Content store `write(key, text) -> ack | error`. -/
def FileStore.write (fs : FileStore) (fpath : String) (text : String) :
    RespV3 Unit × FileStore :=
  match lookupA fs.writeFail fpath with
  | some e => (.error e, fs)
  | none => (.ok (), { fs with entries := setA fs.entries fpath text })

/-- Content store `delete(key) -> ack | error`. -/
def FileStore.delete (fs : FileStore) (fpath : String) : RespV3 Unit × FileStore :=
  match lookupA fs.deleteFail fpath with
  | some e => (.error e, fs)
  | none => (.ok (), { fs with entries := eraseA fs.entries fpath })

/-- Modelled from the spec: `NoteUtils.getFullPath` — the pure path
resolver `(metadata, workspaceRoot) -> contentKey`, a deterministic
function of the metadata's hierarchical name. -/
def NoteUtils.getFullPath (note : NotePropsMeta) (wsRoot : String) : String :=
  wsRoot ++ "/" ++ note.fname ++ ".md"

/-- Modelled from the spec: `genHash` — a content-derived digest computed
over an entire raw text blob. -/
def genHash (s : String) : String :=
  toString (s.data.foldl (fun h c => (h * 31 + c.toNat) % 1000000007) 7)

/-- Modelled from the spec: the frontmatter block the serializer emits for
a note's structured fields (everything except `body`). -/
def serializeMeta (note : NoteProps) : String :=
  "id: " ++ note.id ++ "\nfname: " ++ note.fname ++
    note.custom.foldl (fun acc p => acc ++ "\n" ++ p.1 ++ ": " ++ p.2) ""

/-- Modelled from the spec: `NoteUtils.serialize` — reconstructs the
header-span-plus-body content format: an opening delimiter line, the
frontmatter, a closing delimiter line, then the body. (The `excludeStub`
policy concerns placeholder notes, which this model does not create.) -/
def NoteUtils.serialize (note : NoteProps) : String :=
  "---\n" ++ serializeMeta note ++ "\n---\n" ++ note.body

/-- Whether the text begins with the three-character delimiter `---`. -/
def isDelimAt : List Char → Bool
  | a :: b :: c :: _ => a == '-' && b == '-' && c == '-'
  | _ => false

/-- Index of the first position at which `---` begins, if any. -/
def findClose : List Char → Option Nat
  | [] => none
  | c :: rest =>
    if isDelimAt (c :: rest) then some 0 else (findClose rest).map (· + 1)

/-- Whether the three-character delimiter occurs anywhere in the text. -/
def hasDelim : List Char → Bool
  | [] => false
  | c :: rest => isDelimAt (c :: rest) || hasDelim rest

/-- The regex match of `NoteStore.get` (pattern `^---[\s\S]+?---` between
slash delimiters), returning the length of the match: anchored at the
start, an opening `---`, a lazily matched non-empty middle, and the
earliest closing `---`; the match length is `3 + (1 + j) + 3` where `j`
positions the earliest close after the forced first middle character. -/
def matchFrontmatter (cs : List Char) : Option Nat :=
  if isDelimAt cs then
    match cs.drop 3 with
    | [] => none
    | _ :: rest1 => (findClose rest1).map (fun j => j + 7)
  else none

/-- The engine state: immutable references to the two backing stores and
the workspace root used for path resolution. -/
structure NoteStore where
  fileStore : FileStore
  metadataStore : MetaStore
  wsRoot : String

/-- `NoteStore.getMetadata`: thin pass-through to the metadata store. -/
def NoteStore.getMetadata (s : NoteStore) (key : String) : RespV3 NotePropsMeta :=
  s.metadataStore.get key

/-- `NoteStore.getNonMetadata`: thin pass-through to the content store's
read at an already-resolved path. -/
def NoteStore.getNonMetadata (s : NoteStore) (fpath : String) : RespV3 String :=
  s.fileStore.read fpath

/-- `NoteStore.get`: fetch metadata, resolve the content path, fetch raw
content, parse the frontmatter span, and merge into a full note. On a
missing header span, fail with `BAD_PARSE_FOR_NOTE` naming the path and
the key. `body` is `nonMetadata.data.slice(offset + 1)` and `contentHash`
is `genHash` of the entire raw content. -/
def NoteStore.get (s : NoteStore) (key : String) : RespV3 NoteProps :=
  match s.getMetadata key with
  | .error e => .error e
  | .ok metadata =>
    let fpath := NoteUtils.getFullPath metadata s.wsRoot
    match s.getNonMetadata fpath with
    | .error e => .error e
    | .ok content =>
      match matchFrontmatter content.data with
      | some offset =>
        .ok { toNotePropsMeta :=
                { metadata with contentHash := some (genHash content) }
              body := String.mk (content.data.drop (offset + 1)) }
      | none =>
        .error
          { status := .badParseForNote
            message := "Frontmatter missing for file " ++ fpath ++
              " associated with note " ++ key ++ "."
            severity := some .minor }

/-- `NoteStore.findMetaData`: pass-through to the metadata store query. -/
def NoteStore.findMetaData (s : NoteStore) (opts : FindNoteOpts) :
    RespV3 (List NotePropsMeta) :=
  s.metadataStore.find opts

/-- The errors of a batch of `get` responses, in response order. -/
def respErrs (rs : List (RespV3 NoteProps)) : List DendronError :=
  rs.filterMap fun r => match r with | .error e => some e | .ok _ => none

/-- The successful notes of a batch of `get` responses, in response order. -/
def respOks (rs : List (RespV3 NoteProps)) : List NoteProps :=
  rs.filterMap fun r => match r with | .ok n => some n | .error _ => none

/-- `NoteStore.find`: query metadata; on failure wrap the single error in
a composite error with no data. Otherwise issue one `get` per matched row
(each `get` is a pure read, so the concurrent `Promise.all` join equals
the pointwise map), split the responses into failures and successes, and
return both: a composite of the failures (or null when none) and the list
of all successes. -/
def NoteStore.find (s : NoteStore) (opts : FindNoteOpts) :
    BulkResp (List NoteProps) :=
  match s.findMetaData opts with
  | .error e => { error := some ⟨[e]⟩, data := none }
  | .ok noteMetadata =>
    let responses := noteMetadata.map fun m => s.get m.id
    let errors := respErrs responses
    { error := if errors.length > 0 then some ⟨errors⟩ else none
      data := some (respOks responses) }

/-- The `Ids don't match` error of `NoteStore.writeMetadata`; the source
interpolates the note object itself into the message. -/
def identityMismatchError (key : String) : DendronError :=
  { status := .writeFailed
    message := "Ids don't match between key " ++ key ++ " and note [object Object]."
    severity := some .minor }

/-- `NoteStore.writeMetadata`: fail fast with no I/O when the key differs
from the note's own id; otherwise write the `body`-less projection of the
note to the metadata store under the key and return the key. -/
def NoteStore.writeMetadata (s : NoteStore) (key : String) (note : NoteProps) :
    RespV3 String × NoteStore :=
  if key ≠ note.id then
    (.error (identityMismatchError key), s)
  else
    match s.metadataStore.write key (omitBody note) with
    | (.error e, ms) => (.error e, { s with metadataStore := ms })
    | (.ok _, ms) => (.ok key, { s with metadataStore := ms })

/-- `NoteStore.write`: metadata first; on metadata failure return that
error without touching the content store. Then resolve the path from the
note, serialize it, and write the content; a content-store error is
returned verbatim with the metadata half already committed. -/
def NoteStore.write (s : NoteStore) (key : String) (note : NoteProps) :
    RespV3 String × NoteStore :=
  match s.writeMetadata key note with
  | (.error e, s1) => (.error e, s1)
  | (.ok _, s1) =>
    let fpath := NoteUtils.getFullPath (omitBody note) s1.wsRoot
    let content := NoteUtils.serialize note
    match s1.fileStore.write fpath content with
    | (.error e, fs) => (.error e, { s1 with fileStore := fs })
    | (.ok _, fs) => (.ok key, { s1 with fileStore := fs })

/-- `NoteStore.delete`: fetch metadata (to resolve the content path),
delete the content blob, then delete the metadata row; abort at the first
failing step, returning its error. -/
def NoteStore.delete (s : NoteStore) (key : String) : RespV3 String × NoteStore :=
  match s.getMetadata key with
  | .error e => (.error e, s)
  | .ok metadata =>
    let fpath := NoteUtils.getFullPath metadata s.wsRoot
    match s.fileStore.delete fpath with
    | (.error e, fs) => (.error e, { s with fileStore := fs })
    | (.ok _, fs) =>
      let s1 : NoteStore := { s with fileStore := fs }
      match s1.metadataStore.delete key with
      | (.error e, ms) => (.error e, { s1 with metadataStore := ms })
      | (.ok _, ms) => (.ok key, { s1 with metadataStore := ms })

/-- `NoteStore.rename`: functionally incomplete in the source — it
concatenates the two locations' names and returns that string, mutating
nothing. -/
def NoteStore.rename (s : NoteStore) (oldLoc newLoc : DNoteLoc) :
    RespV3 String × NoteStore :=
  (.ok (oldLoc.fname ++ newLoc.fname), s)

/-- A sample full note used by concrete instantiations. -/
def exNote : NoteProps :=
  { id := "a1", fname := "foo", custom := [], contentHash := none, body := "hello" }

/-- The metadata row of `exNote`. -/
def exMetaA : NotePropsMeta :=
  { id := "a1", fname := "foo", custom := [], contentHash := none }

/-- A second metadata row whose content blob is malformed. -/
def exMetaB : NotePropsMeta :=
  { id := "b1", fname := "bar", custom := [], contentHash := none }

/-- A sample backend error injected into concrete stores. -/
def exErr : DendronError :=
  { status := .backendError, message := "backend failure", severity := some .fatal }

/-- An engine over two empty stores with no injected failures. -/
def exEmpty : NoteStore :=
  { fileStore := { entries := [], readFail := [], writeFail := [], deleteFail := [] }
    metadataStore :=
      { entries := [], getFail := [], writeFail := [], deleteFail := [], findFail := none }
    wsRoot := "ws" }

/-- A well-formed raw content blob for `exNote`. -/
def exGood : String := "---\nid: a1\nfname: foo\n---\nhello"

/-- An engine holding a well-formed note `a1` and a malformed note `b1`. -/
def exStore : NoteStore :=
  { fileStore :=
      { entries := [("ws/foo.md", exGood), ("ws/bar.md", "garbage")]
        readFail := [], writeFail := [], deleteFail := [] }
    metadataStore :=
      { entries := [("a1", exMetaA), ("b1", exMetaB)]
        getFail := [], writeFail := [], deleteFail := [], findFail := none }
    wsRoot := "ws" }

/-- An engine whose metadata query is set to fail. -/
def exStoreFindFail : NoteStore :=
  { exStore with metadataStore := { exStore.metadataStore with findFail := some exErr } }

/-- An engine whose content store rejects writes at the path of `exNote`. -/
def exStoreWriteFail : NoteStore :=
  { exEmpty with fileStore := { exEmpty.fileStore with writeFail := [("ws/foo.md", exErr)] } }

/-- An engine whose content store rejects deletion at the path of `exNote`. -/
def exStoreDeleteFail : NoteStore :=
  { exStore with fileStore := { exStore.fileStore with deleteFail := [("ws/foo.md", exErr)] } }

/-- The raw content of the C2 counterexample: its header opening and
closing delimiters each sit on their own line, but the delimiter also
occurs mid-line inside the header interior. -/
def exTrickyContent : String := "---\na---b\n---\nBODY"

/-- An engine whose note `a1` carries `exTrickyContent`. -/
def exStoreTricky : NoteStore :=
  { exEmpty with
    fileStore := { exEmpty.fileStore with entries := [("ws/foo.md", exTrickyContent)] }
    metadataStore := { exEmpty.metadataStore with entries := [("a1", exMetaA)] } }

/-! ### Association-list lemmas -/

theorem lookupA_setA_self {α : Type} (l : List (String × α)) (k : String) (v : α) :
    lookupA (setA l k v) k = some v := by
  simp [setA, lookupA]

theorem lookupA_eraseA_self {α : Type} (l : List (String × α)) (k : String) :
    lookupA (eraseA l k) k = none := by
  induction l with
  | nil => rfl
  | cons p rest ih =>
    by_cases h : p.1 = k
    · simpa [eraseA, List.filter_cons, h] using ih
    · simpa [eraseA, List.filter_cons, h, lookupA] using ih

/-! ### Backing-store operation characterizations -/

theorem metaStore_get_ok (ms : MetaStore) (key : String) (m : NotePropsMeta)
    (h : ms.get key = .ok m) : lookupA ms.entries key = some m := by
  unfold MetaStore.get at h
  cases hf : lookupA ms.getFail key <;> rw [hf] at h
  · cases he : lookupA ms.entries key <;> rw [he] at h
    · cases h
    · injection h with h
      rw [h]
  · cases h

theorem metaStore_write_ok (ms : MetaStore) (key : String) (m : NotePropsMeta)
    (u : Unit) (ms' : MetaStore) (h : ms.write key m = (.ok u, ms')) :
    ms' = { ms with entries := setA ms.entries key m } := by
  unfold MetaStore.write at h
  cases hf : lookupA ms.writeFail key <;> rw [hf] at h
  · exact ((Prod.mk.injEq ..).mp h).2.symm
  · exact absurd ((Prod.mk.injEq ..).mp h).1 (by simp)

theorem metaStore_write_error (ms : MetaStore) (key : String) (m : NotePropsMeta)
    (e : DendronError) (ms' : MetaStore) (h : ms.write key m = (.error e, ms')) :
    ms' = ms := by
  unfold MetaStore.write at h
  cases hf : lookupA ms.writeFail key <;> rw [hf] at h
  · exact absurd ((Prod.mk.injEq ..).mp h).1 (by simp)
  · exact ((Prod.mk.injEq ..).mp h).2.symm

theorem metaStore_delete_ok (ms : MetaStore) (key : String)
    (u : Unit) (ms' : MetaStore) (h : ms.delete key = (.ok u, ms')) :
    ms' = { ms with entries := eraseA ms.entries key } := by
  unfold MetaStore.delete at h
  cases hf : lookupA ms.deleteFail key <;> rw [hf] at h
  · exact ((Prod.mk.injEq ..).mp h).2.symm
  · exact absurd ((Prod.mk.injEq ..).mp h).1 (by simp)

theorem fileStore_write_ok (fs : FileStore) (fpath text : String)
    (u : Unit) (fs' : FileStore) (h : fs.write fpath text = (.ok u, fs')) :
    fs' = { fs with entries := setA fs.entries fpath text } := by
  unfold FileStore.write at h
  cases hf : lookupA fs.writeFail fpath <;> rw [hf] at h
  · exact ((Prod.mk.injEq ..).mp h).2.symm
  · exact absurd ((Prod.mk.injEq ..).mp h).1 (by simp)

theorem fileStore_delete_ok (fs : FileStore) (fpath : String)
    (u : Unit) (fs' : FileStore) (h : fs.delete fpath = (.ok u, fs')) :
    fs' = { fs with entries := eraseA fs.entries fpath } := by
  unfold FileStore.delete at h
  cases hf : lookupA fs.deleteFail fpath <;> rw [hf] at h
  · exact ((Prod.mk.injEq ..).mp h).2.symm
  · exact absurd ((Prod.mk.injEq ..).mp h).1 (by simp)

/-! ### Frontmatter parsing lemmas -/

theorem nl_beq_dash : ('\n' == '-') = false := rfl

theorem isDelimAt_cons_append (a : Char) (fm tail : List Char)
    (h : isDelimAt (a :: fm) = false) :
    isDelimAt (a :: (fm ++ '\n' :: '-' :: '-' :: '-' :: tail)) = false := by
  match fm with
  | [] => simp [isDelimAt, nl_beq_dash]
  | [b] => simp [isDelimAt, nl_beq_dash]
  | b :: c :: fm2 => simpa [isDelimAt] using h

theorem findClose_append_delim (fm tail : List Char) (h : hasDelim fm = false) :
    findClose (fm ++ '\n' :: '-' :: '-' :: '-' :: tail) = some (fm.length + 1) := by
  induction fm with
  | nil => rfl
  | cons a fm ih =>
    have h' : isDelimAt (a :: fm) = false ∧ hasDelim fm = false := by
      simpa [hasDelim] using h
    have hd := isDelimAt_cons_append a fm tail h'.1
    rw [List.cons_append]
    rw [show findClose (a :: (fm ++ '\n' :: '-' :: '-' :: '-' :: tail))
        = if isDelimAt (a :: (fm ++ '\n' :: '-' :: '-' :: '-' :: tail)) then some 0
          else (findClose (fm ++ '\n' :: '-' :: '-' :: '-' :: tail)).map (· + 1) from rfl]
    rw [hd]
    simp [ih h'.2]

theorem matchFrontmatter_wellformed (fm tail : List Char) (h : hasDelim fm = false) :
    matchFrontmatter
        ('-' :: '-' :: '-' :: '\n' :: (fm ++ '\n' :: '-' :: '-' :: '-' :: '\n' :: tail))
      = some (fm.length + 8) := by
  have hf := findClose_append_delim fm ('\n' :: tail) h
  simp only [matchFrontmatter, isDelimAt, List.drop_succ_cons, List.drop_zero, hf,
    Option.map_some']
  norm_num

theorem drop_wellformed (fm tail : List Char) :
    ('-' :: '-' :: '-' :: '\n' :: (fm ++ '\n' :: '-' :: '-' :: '-' :: '\n' :: tail)).drop
        (fm.length + 8 + 1) = tail := by
  have hsplit :
      '-' :: '-' :: '-' :: '\n' :: (fm ++ '\n' :: '-' :: '-' :: '-' :: '\n' :: tail)
        = (('-' :: '-' :: '-' :: '\n' :: fm) ++ ['\n', '-', '-', '-', '\n']) ++ tail := by
    simp
  rw [hsplit, List.drop_left']
  simp


theorem fileStore_delete_error (fs : FileStore) (fpath : String)
    (e : DendronError) (fs' : FileStore) (h : fs.delete fpath = (.error e, fs')) :
    fs' = fs := by
  unfold FileStore.delete at h
  cases hf : lookupA fs.deleteFail fpath <;> rw [hf] at h
  · exact absurd ((Prod.mk.injEq ..).mp h).1 (by simp)
  · exact ((Prod.mk.injEq ..).mp h).2.symm

/-! ### Engine-level characterizations -/

theorem NoteStore.writeMetadata_error (s : NoteStore) (key : String) (note : NoteProps)
    (e : DendronError) (s1 : NoteStore)
    (h : s.writeMetadata key note = (.error e, s1)) : s1 = s := by
  unfold NoteStore.writeMetadata at h
  by_cases hid : key ≠ note.id
  · rw [if_pos hid] at h
    exact ((Prod.mk.injEq ..).mp h).2.symm
  · rw [if_neg hid] at h
    cases hw : s.metadataStore.write key (omitBody note) with
    | mk r ms =>
      rw [hw] at h
      cases r with
      | error e2 =>
        have hms := metaStore_write_error _ _ _ _ _ hw
        have h2 := ((Prod.mk.injEq ..).mp h).2
        rw [← h2, hms]
      | ok u => exact absurd ((Prod.mk.injEq ..).mp h).1 (by simp)

theorem NoteStore.writeMetadata_ok (s : NoteStore) (key : String) (note : NoteProps)
    (d : String) (s1 : NoteStore)
    (h : s.writeMetadata key note = (.ok d, s1)) :
    d = key ∧ key = note.id ∧
      s1 = { s with metadataStore :=
        { s.metadataStore with
          entries := setA s.metadataStore.entries key (omitBody note) } } := by
  unfold NoteStore.writeMetadata at h
  by_cases hid : key ≠ note.id
  · rw [if_pos hid] at h
    exact absurd ((Prod.mk.injEq ..).mp h).1 (by simp)
  · rw [if_neg hid] at h
    cases hw : s.metadataStore.write key (omitBody note) with
    | mk r ms =>
      rw [hw] at h
      cases r with
      | error e2 => exact absurd ((Prod.mk.injEq ..).mp h).1 (by simp)
      | ok u =>
        have hms := metaStore_write_ok _ _ _ _ _ hw
        obtain ⟨h1, h2⟩ := (Prod.mk.injEq ..).mp h
        refine ⟨?_, not_not.mp hid, ?_⟩
        · injection h1 with h1
          exact h1.symm
        · rw [← h2, hms]

theorem data_wellformed (fm rest : String) :
    ("---\n" ++ fm ++ "\n---\n" ++ rest).data
      = '-' :: '-' :: '-' :: '\n'
          :: (fm.data ++ '\n' :: '-' :: '-' :: '-' :: '\n' :: rest.data) := by
  simp [String.data_append]

theorem NoteStore.get_wellformed (s : NoteStore) (key : String) (meta : NotePropsMeta)
    (content fm rest : String)
    (hm : s.getMetadata key = .ok meta)
    (hc : s.getNonMetadata (NoteUtils.getFullPath meta s.wsRoot) = .ok content)
    (hcontent : content = "---\n" ++ fm ++ "\n---\n" ++ rest)
    (hfm : hasDelim fm.data = false) :
    s.get key = .ok
      { toNotePropsMeta := { meta with contentHash := some (genHash content) }
        body := rest } := by
  unfold NoteStore.get
  rw [hm]
  simp only
  rw [hc]
  simp only
  rw [show content.data
      = '-' :: '-' :: '-' :: '\n'
          :: (fm.data ++ '\n' :: '-' :: '-' :: '-' :: '\n' :: rest.data) from
    hcontent ▸ data_wellformed fm rest]
  rw [matchFrontmatter_wellformed fm.data rest.data hfm]
  simp only
  rw [drop_wellformed fm.data rest.data]

/-! ### Batch-response lemmas -/

theorem respOks_length_add_respErrs_length (rs : List (RespV3 NoteProps)) :
    (respOks rs).length + (respErrs rs).length = rs.length := by
  induction rs with
  | nil => rfl
  | cons r rest ih =>
    cases r with
    | ok n =>
      simp only [respOks, respErrs, List.filterMap_cons] at ih ⊢
      simp only [List.length_cons]
      omega
    | error e =>
      simp only [respOks, respErrs, List.filterMap_cons] at ih ⊢
      simp only [List.length_cons]
      omega

theorem respErrs_nil_of_all_ok (rs : List (RespV3 NoteProps))
    (h : ∀ r ∈ rs, ∃ n, r = .ok n) :
    respErrs rs = [] ∧ (respOks rs).length = rs.length := by
  induction rs with
  | nil => exact ⟨rfl, rfl⟩
  | cons r rest ih =>
    obtain ⟨n, hn⟩ := h r (List.mem_cons_self r rest)
    have ih' := ih fun r' hr' => h r' (List.mem_cons_of_mem r hr')
    subst hn
    simp only [respOks, respErrs, List.filterMap_cons] at ih' ⊢
    simp only [List.length_cons]
    exact ⟨ih'.1, by omega⟩

/-! ### Claim theorems -/

/-- C1: for every query, `find` first runs `findMetaData`; on its failure it
returns a composite error holding exactly that one error and no data. On
success with rows `metas`, the data list is exactly the successful merges
(in row order, none dropped), its length is `N − M` where `M` counts the
failing per-row `get` calls, and when `M ≥ 1` the error is a composite
with exactly the `M` failures as members. -/
theorem find_partial_failure (s : NoteStore) (opts : FindNoteOpts) :
    (∀ e, s.findMetaData opts = .error e →
        s.find opts = { error := some ⟨[e]⟩, data := none }) ∧
    (∀ metas, s.findMetaData opts = .ok metas →
        (s.find opts).data = some (respOks (metas.map fun m => s.get m.id)) ∧
        (respOks (metas.map fun m => s.get m.id)).length
            = metas.length - (respErrs (metas.map fun m => s.get m.id)).length ∧
        ((respErrs (metas.map fun m => s.get m.id)).length ≥ 1 →
          (s.find opts).error
            = some ⟨respErrs (metas.map fun m => s.get m.id)⟩)) := by
  constructor
  · intro e h
    unfold NoteStore.find
    rw [h]
  · intro metas h
    have hfind : s.find opts =
        { error := if (respErrs (metas.map fun m => s.get m.id)).length > 0
              then some ⟨respErrs (metas.map fun m => s.get m.id)⟩ else none
          data := some (respOks (metas.map fun m => s.get m.id)) } := by
      unfold NoteStore.find
      rw [h]
    refine ⟨by rw [hfind], ?_, ?_⟩
    · have := respOks_length_add_respErrs_length (metas.map fun m => s.get m.id)
      simp only [List.length_map] at this
      omega
    · intro hge
      have hpos : (respErrs (metas.map fun m => s.get m.id)).length > 0 := hge
      rw [hfind]
      simp [hpos]

/-- C1 witness: a failing query wraps the single backend error into a
one-member composite with absent data; a two-row query with one malformed
note returns one note and a one-member composite error. -/
theorem find_partial_failure_witness :
    exStoreFindFail.find { fname := none } = { error := some ⟨[exErr]⟩, data := none } ∧
    (exStore.find { fname := none }).data
      = some (respOks ([exMetaA, exMetaB].map fun m => exStore.get m.id)) ∧
    (respOks ([exMetaA, exMetaB].map fun m => exStore.get m.id)).length
      = ([exMetaA, exMetaB] : List NotePropsMeta).length
          - (respErrs ([exMetaA, exMetaB].map fun m => exStore.get m.id)).length ∧
    (exStore.find { fname := none }).error
      = some ⟨respErrs ([exMetaA, exMetaB].map fun m => exStore.get m.id)⟩ := by
  have h := (find_partial_failure exStore { fname := none }).2 [exMetaA, exMetaB] rfl
  exact ⟨(find_partial_failure exStoreFindFail { fname := none }).1 exErr rfl,
    h.1, h.2.1, h.2.2 (by decide)⟩

/-- C10: when `findMetaData` succeeds and every per-row `get` succeeds
(including a zero-row result), `find` returns error explicitly null
(`none`), never a zero-member composite, alongside the full data list. -/
theorem find_all_ok_error_null (s : NoteStore) (opts : FindNoteOpts)
    (metas : List NotePropsMeta)
    (h : s.findMetaData opts = .ok metas)
    (hall : ∀ m ∈ metas, ∃ n, s.get m.id = .ok n) :
    (s.find opts).error = none ∧
    (s.find opts).data = some (respOks (metas.map fun m => s.get m.id)) ∧
    (respOks (metas.map fun m => s.get m.id)).length = metas.length := by
  have hnil := respErrs_nil_of_all_ok (metas.map fun m => s.get m.id)
    (by
      intro r hr
      obtain ⟨m, hmm, hr⟩ := List.mem_map.mp hr
      obtain ⟨n, hn⟩ := hall m hmm
      exact ⟨n, hr ▸ hn⟩)
  have hfind : s.find opts =
      { error := if (respErrs (metas.map fun m => s.get m.id)).length > 0
            then some ⟨respErrs (metas.map fun m => s.get m.id)⟩ else none
        data := some (respOks (metas.map fun m => s.get m.id)) } := by
    unfold NoteStore.find
    rw [h]
  refine ⟨?_, by rw [hfind], by simpa using hnil.2⟩
  rw [hfind, hnil.1]
  simp

/-- C10 witness: a query over an empty store matches zero rows; the error
field is null and the data list is present and empty. -/
theorem find_all_ok_error_null_witness :
    (exEmpty.find { fname := none }).error = none ∧
    (exEmpty.find { fname := none }).data
      = some (respOks (([] : List NotePropsMeta).map fun m => exEmpty.get m.id)) ∧
    (respOks (([] : List NotePropsMeta).map fun m => exEmpty.get m.id)).length
      = ([] : List NotePropsMeta).length :=
  find_all_ok_error_null exEmpty { fname := none } [] rfl (by simp)

/-- C9: `rename` concatenates the old and new locations' names and returns
that string as successful data, mutating neither backing store. -/
theorem rename_returns_concatenation (s : NoteStore) (oldLoc newLoc : DNoteLoc) :
    s.rename oldLoc newLoc = (.ok (oldLoc.fname ++ newLoc.fname), s) ∧
    (s.rename oldLoc newLoc).2.metadataStore.entries = s.metadataStore.entries ∧
    (s.rename oldLoc newLoc).2.fileStore.entries = s.fileStore.entries :=
  ⟨rfl, rfl, rfl⟩

/-- C2 counterexample: `exTrickyContent` starts with a header span whose
opening and closing delimiters each sit on their own line (interior
`a---b`), so the claim predicts body `BODY`; the engine's lazy match stops
at the first delimiter occurrence, inside the line `a---b`, and returns
body `\n---\nBODY` instead. -/
theorem get_header_span_counterexample :
    exTrickyContent = "---\n" ++ "a---b" ++ "\n---\n" ++ "BODY" ∧
    exStoreTricky.getMetadata "a1" = .ok exMetaA ∧
    exStoreTricky.getNonMetadata (NoteUtils.getFullPath exMetaA exStoreTricky.wsRoot)
      = .ok exTrickyContent ∧
    exStoreTricky.get "a1" = .ok
      { toNotePropsMeta := { exMetaA with contentHash := some (genHash exTrickyContent) }
        body := "\n---\nBODY" } ∧
    ("\n---\nBODY" : String) ≠ "BODY" :=
  ⟨rfl, rfl, rfl, rfl, by decide⟩

/-- C2 (amended): when metadata and content fetches succeed and the raw
content starts with a header span whose delimiters sit on their own lines
and whose interior contains no further occurrence of the delimiter, `get`
returns every metadata field plus body equal to the substring after the
closing delimiter with exactly the one following newline skipped, and
`contentHash` computed over the entire raw content. -/
theorem get_header_span_merge (s : NoteStore) (key : String) (meta : NotePropsMeta)
    (content fm rest : String)
    (hm : s.getMetadata key = .ok meta)
    (hc : s.getNonMetadata (NoteUtils.getFullPath meta s.wsRoot) = .ok content)
    (hcontent : content = "---\n" ++ fm ++ "\n---\n" ++ rest)
    (hfm : hasDelim fm.data = false) :
    s.get key = .ok
      { toNotePropsMeta := { meta with contentHash := some (genHash content) }
        body := rest } :=
  NoteStore.get_wellformed s key meta content fm rest hm hc hcontent hfm

/-- C2 witness: reading the well-formed note `a1` of `exStore` merges its
metadata with body `hello` and the hash of the whole blob `exGood`. -/
theorem get_header_span_merge_witness :
    exStore.get "a1" = .ok
      { toNotePropsMeta := { exMetaA with contentHash := some (genHash exGood) }
        body := "hello" } :=
  get_header_span_merge exStore "a1" exMetaA exGood "id: a1\nfname: foo" "hello"
    rfl rfl rfl rfl

/-- C7: when both fetches succeed but the raw content has no frontmatter
match, `get` fails with the `BAD_PARSE_FOR_NOTE` error of minor severity
whose message contains both the resolved content path and the identifier,
and returns no data. -/
theorem get_malformed_content (s : NoteStore) (key : String) (meta : NotePropsMeta)
    (content : String)
    (hm : s.getMetadata key = .ok meta)
    (hc : s.getNonMetadata (NoteUtils.getFullPath meta s.wsRoot) = .ok content)
    (hno : matchFrontmatter content.data = none) :
    s.get key = .error
      { status := .badParseForNote
        message := "Frontmatter missing for file " ++ NoteUtils.getFullPath meta s.wsRoot
            ++ " associated with note " ++ key ++ "."
        severity := some .minor } ∧
    ∃ pre mid post,
      "Frontmatter missing for file " ++ NoteUtils.getFullPath meta s.wsRoot
          ++ " associated with note " ++ key ++ "."
        = pre ++ NoteUtils.getFullPath meta s.wsRoot ++ mid ++ key ++ post := by
  refine ⟨?_, "Frontmatter missing for file ", " associated with note ", ".", rfl⟩
  unfold NoteStore.get
  rw [hm]
  simp only
  rw [hc]
  simp only
  rw [hno]

/-- C7 witness: note `b1` of `exStore` stores the delimiterless blob
`garbage`; `get` fails with the parse error naming `ws/bar.md` and `b1`. -/
theorem get_malformed_content_witness :
    exStore.get "b1" = .error
      { status := .badParseForNote
        message := "Frontmatter missing for file " ++ NoteUtils.getFullPath exMetaB exStore.wsRoot
            ++ " associated with note " ++ "b1" ++ "."
        severity := some .minor } ∧
    ∃ pre mid post,
      "Frontmatter missing for file " ++ NoteUtils.getFullPath exMetaB exStore.wsRoot
          ++ " associated with note " ++ "b1" ++ "."
        = pre ++ NoteUtils.getFullPath exMetaB exStore.wsRoot ++ mid ++ "b1" ++ post :=
  get_malformed_content exStore "b1" exMetaB "garbage" rfl rfl rfl

/-- C3: a note successfully written under its own id and then read back
(with no interleaving operation and no injected read fault) yields a full
note whose metadata fields are the written note's and whose body is the
exact original body text; `validity` asks only that the serialized
frontmatter contain no stray delimiter. -/
theorem write_then_get_roundtrip (s : NoteStore) (note : NoteProps) (s1 : NoteStore)
    (hvalid : hasDelim (serializeMeta note).data = false)
    (hw : s.write note.id note = (.ok note.id, s1))
    (hget : lookupA s1.metadataStore.getFail note.id = none)
    (hread : lookupA s1.fileStore.readFail
        (NoteUtils.getFullPath (omitBody note) s1.wsRoot) = none) :
    s1.get note.id = .ok
      { toNotePropsMeta :=
          { omitBody note with contentHash := some (genHash (NoteUtils.serialize note)) }
        body := note.body } := by
  cases hwm : s.writeMetadata note.id note with
  | mk r s2 =>
  cases r with
  | error e =>
    have hcontra : s.write note.id note = (.error e, s2) := by
      unfold NoteStore.write
      rw [hwm]
    rw [hcontra] at hw
    exact absurd ((Prod.mk.injEq ..).mp hw).1 (by simp)
  | ok d =>
    obtain ⟨hd, -, hs2⟩ := NoteStore.writeMetadata_ok _ _ _ _ _ hwm
    cases hfw : s2.fileStore.write (NoteUtils.getFullPath (omitBody note) s2.wsRoot)
        (NoteUtils.serialize note) with
    | mk r2 fs =>
    cases r2 with
    | error e2 =>
      have hcontra : s.write note.id note = (.error e2, { s2 with fileStore := fs }) := by
        unfold NoteStore.write
        rw [hwm]
        simp only
        rw [hfw]
      rw [hcontra] at hw
      exact absurd ((Prod.mk.injEq ..).mp hw).1 (by simp)
    | ok u =>
      have hwr : s.write note.id note = (.ok note.id, { s2 with fileStore := fs }) := by
        unfold NoteStore.write
        rw [hwm]
        simp only
        rw [hfw]
      rw [hwr] at hw
      have hs1 : s1 = { s2 with fileStore := fs } := ((Prod.mk.injEq ..).mp hw).2.symm
      have hfs := fileStore_write_ok _ _ _ _ _ hfw
      subst hs1
      subst hfs
      subst hs2
      refine NoteStore.get_wellformed _ note.id (omitBody note) (NoteUtils.serialize note)
        (serializeMeta note) note.body ?_ ?_ rfl hvalid
      · unfold NoteStore.getMetadata MetaStore.get
        rw [show lookupA ({ s with metadataStore :=
            { s.metadataStore with
              entries := setA s.metadataStore.entries note.id (omitBody note) } } :
            NoteStore).metadataStore.getFail note.id = none from hget]
        simp only
        rw [lookupA_setA_self]
      · unfold NoteStore.getNonMetadata FileStore.read
        rw [show lookupA ({ s with metadataStore :=
            { s.metadataStore with
              entries := setA s.metadataStore.entries note.id (omitBody note) } } :
            NoteStore).fileStore.readFail
            (NoteUtils.getFullPath (omitBody note) s.wsRoot) = none from hread]
        simp only
        rw [lookupA_setA_self]

/-- C3 witness: writing `exNote` into the empty engine and reading it back
returns its metadata, body `hello`, and the hash of the serialized blob. -/
theorem write_then_get_roundtrip_witness :
    (exEmpty.write exNote.id exNote).2.get exNote.id = .ok
      { toNotePropsMeta :=
          { omitBody exNote with contentHash := some (genHash (NoteUtils.serialize exNote)) }
        body := exNote.body } :=
  write_then_get_roundtrip exEmpty exNote (exEmpty.write exNote.id exNote).2
    rfl rfl rfl rfl

/-- C4: both `writeMetadata` and `write` under a key that differs from the
note's own id fail with the identity-mismatch error and return the engine
state entirely unchanged — no metadata row and no content are written. -/
theorem write_identity_mismatch (s : NoteStore) (key : String) (note : NoteProps)
    (h : key ≠ note.id) :
    s.writeMetadata key note = (.error (identityMismatchError key), s) ∧
    s.write key note = (.error (identityMismatchError key), s) := by
  have h1 : s.writeMetadata key note = (.error (identityMismatchError key), s) := by
    unfold NoteStore.writeMetadata
    rw [if_pos h]
  exact ⟨h1, by unfold NoteStore.write; rw [h1]⟩

/-- C4 witness: writing `exNote` (id `a1`) under key `zz` fails with the
mismatch error and leaves the empty engine untouched. -/
theorem write_identity_mismatch_witness :
    exEmpty.writeMetadata "zz" exNote = (.error (identityMismatchError "zz"), exEmpty) ∧
    exEmpty.write "zz" exNote = (.error (identityMismatchError "zz"), exEmpty) :=
  write_identity_mismatch exEmpty "zz" exNote (by decide)

/-- C5: `write` runs the metadata write first — if it fails, that error is
returned and the content store is untouched; if it succeeds and the
content-store write fails, that error is returned verbatim while the
metadata projection stays committed under the key. -/
theorem write_metadata_first (s : NoteStore) (key : String) (note : NoteProps) :
    (∀ e s1, s.writeMetadata key note = (.error e, s1) →
        s.write key note = (.error e, s1) ∧ s1.fileStore = s.fileStore) ∧
    (∀ d s1 e fs, s.writeMetadata key note = (.ok d, s1) →
        s1.fileStore.write (NoteUtils.getFullPath (omitBody note) s1.wsRoot)
            (NoteUtils.serialize note) = (.error e, fs) →
        s.write key note = (.error e, { s1 with fileStore := fs }) ∧
          lookupA s1.metadataStore.entries key = some (omitBody note)) := by
  constructor
  · intro e s1 h
    refine ⟨by unfold NoteStore.write; rw [h], ?_⟩
    rw [NoteStore.writeMetadata_error s key note e s1 h]
  · intro d s1 e fs h hfw
    constructor
    · unfold NoteStore.write
      rw [h]
      simp only
      rw [hfw]
    · obtain ⟨-, -, hs1⟩ := NoteStore.writeMetadata_ok _ _ _ _ _ h
      subst hs1
      exact lookupA_setA_self _ _ _

/-- C5 witness: a mismatched key fails the metadata step and leaves the
content store untouched; with an injected content-store fault, the content
write fails verbatim while the metadata row stays committed. -/
theorem write_metadata_first_witness :
    (exEmpty.write "zz" exNote = (.error (identityMismatchError "zz"), exEmpty) ∧
      exEmpty.fileStore = exEmpty.fileStore) ∧
    (exStoreWriteFail.write exNote.id exNote
        = (.error exErr,
            { (exStoreWriteFail.writeMetadata exNote.id exNote).2 with
              fileStore := (exStoreWriteFail.writeMetadata exNote.id exNote).2.fileStore }) ∧
      lookupA (exStoreWriteFail.writeMetadata exNote.id exNote).2.metadataStore.entries
          exNote.id = some (omitBody exNote)) :=
  ⟨(write_metadata_first exEmpty "zz" exNote).1 (identityMismatchError "zz") exEmpty rfl,
    (write_metadata_first exStoreWriteFail exNote.id exNote).2 exNote.id
      (exStoreWriteFail.writeMetadata exNote.id exNote).2 exErr
      (exStoreWriteFail.writeMetadata exNote.id exNote).2.fileStore rfl rfl⟩

/-- C6: `delete` fetches metadata, deletes the content blob, then the
metadata row. A metadata-fetch failure aborts with no mutation; a
content-deletion failure aborts with the metadata row still present; after
full success neither store holds an entry for the identifier. -/
theorem delete_content_before_metadata (s : NoteStore) (key : String) :
    (∀ e, s.getMetadata key = .error e → s.delete key = (.error e, s)) ∧
    (∀ meta e fs, s.getMetadata key = .ok meta →
        s.fileStore.delete (NoteUtils.getFullPath meta s.wsRoot) = (.error e, fs) →
        s.delete key = (.error e, { s with fileStore := fs }) ∧
          fs = s.fileStore ∧
          lookupA s.metadataStore.entries key = some meta) ∧
    (∀ meta u fs v ms, s.getMetadata key = .ok meta →
        s.fileStore.delete (NoteUtils.getFullPath meta s.wsRoot) = (.ok u, fs) →
        s.metadataStore.delete key = (.ok v, ms) →
        s.delete key = (.ok key, { s with fileStore := fs, metadataStore := ms }) ∧
          lookupA fs.entries (NoteUtils.getFullPath meta s.wsRoot) = none ∧
          lookupA ms.entries key = none) := by
  refine ⟨?_, ?_, ?_⟩
  · intro e h
    unfold NoteStore.delete
    rw [h]
  · intro meta e fs hm hfd
    refine ⟨?_, fileStore_delete_error _ _ _ _ hfd, metaStore_get_ok _ _ _ hm⟩
    unfold NoteStore.delete
    rw [hm]
    simp only
    rw [hfd]
  · intro meta u fs v ms hm hfd hmd
    refine ⟨?_, ?_, ?_⟩
    · unfold NoteStore.delete
      rw [hm]
      simp only
      rw [hfd]
      simp only
      rw [hmd]
    · rw [fileStore_delete_ok _ _ _ _ hfd]
      exact lookupA_eraseA_self _ _
    · rw [metaStore_delete_ok _ _ _ _ hmd]
      exact lookupA_eraseA_self _ _

/-- C6 witness: deleting an absent note fails with no mutation; with an
injected content-deletion fault the metadata row survives; a full delete
of note `a1` clears both stores' entries for it. -/
theorem delete_content_before_metadata_witness :
    exEmpty.delete "a1" = (.error (notFoundError "a1"), exEmpty) ∧
    (exStoreDeleteFail.delete "a1"
        = (.error exErr, { exStoreDeleteFail with fileStore := exStoreDeleteFail.fileStore }) ∧
      lookupA exStoreDeleteFail.metadataStore.entries "a1" = some exMetaA) ∧
    (exStore.delete "a1"
        = (.ok "a1",
            { exStore with
              fileStore := (exStore.fileStore.delete
                  (NoteUtils.getFullPath exMetaA exStore.wsRoot)).2
              metadataStore := (exStore.metadataStore.delete "a1").2 }) ∧
      lookupA (exStore.fileStore.delete
          (NoteUtils.getFullPath exMetaA exStore.wsRoot)).2.entries
          (NoteUtils.getFullPath exMetaA exStore.wsRoot) = none ∧
      lookupA (exStore.metadataStore.delete "a1").2.entries "a1" = none) := by
  refine ⟨(delete_content_before_metadata exEmpty "a1").1 (notFoundError "a1") rfl, ?_, ?_⟩
  · have h := (delete_content_before_metadata exStoreDeleteFail "a1").2.1 exMetaA exErr
      exStoreDeleteFail.fileStore rfl rfl
    exact ⟨h.1, h.2.2⟩
  · exact (delete_content_before_metadata exStore "a1").2.2 exMetaA ()
      (exStore.fileStore.delete (NoteUtils.getFullPath exMetaA exStore.wsRoot)).2 ()
      (exStore.metadataStore.delete "a1").2 rfl rfl rfl

/-- C8: a successful `writeMetadata` with matching identifiers stores under
the key exactly the body-less projection of the note — every other field
preserved — returns the key as data, and leaves the content store alone. -/
theorem writeMetadata_projection (s : NoteStore) (key : String) (note : NoteProps)
    (d : String) (s1 : NoteStore)
    (hid : key = note.id)
    (h : s.writeMetadata key note = (.ok d, s1)) :
    d = key ∧
    s1.metadataStore.entries = setA s.metadataStore.entries key (omitBody note) ∧
    lookupA s1.metadataStore.entries key = some (omitBody note) ∧
    (omitBody note).id = note.id ∧ (omitBody note).fname = note.fname ∧
    (omitBody note).custom = note.custom ∧
    (omitBody note).contentHash = note.contentHash ∧
    s1.fileStore = s.fileStore := by
  obtain ⟨h1, -, h3⟩ := NoteStore.writeMetadata_ok _ _ _ _ _ h
  subst h3
  exact ⟨h1, rfl, lookupA_setA_self _ _ _, rfl, rfl, rfl, rfl, rfl⟩

/-- C8 witness: writing `exNote` under its own id stores its body-less
projection under `a1` and returns the key. -/
theorem writeMetadata_projection_witness :
    ("a1" : String) = "a1" ∧
    (exEmpty.writeMetadata exNote.id exNote).2.metadataStore.entries
      = setA exEmpty.metadataStore.entries exNote.id (omitBody exNote) ∧
    lookupA (exEmpty.writeMetadata exNote.id exNote).2.metadataStore.entries exNote.id
      = some (omitBody exNote) ∧
    (omitBody exNote).id = exNote.id ∧ (omitBody exNote).fname = exNote.fname ∧
    (omitBody exNote).custom = exNote.custom ∧
    (omitBody exNote).contentHash = exNote.contentHash ∧
    (exEmpty.writeMetadata exNote.id exNote).2.fileStore = exEmpty.fileStore :=
  writeMetadata_projection exEmpty exNote.id exNote "a1"
    (exEmpty.writeMetadata exNote.id exNote).2 rfl rfl
